import Mathlib

/-!
Verification of the preprocessing utilities of the BrainTumorSegmentation
repository (`src/utils.py`): bounding-box extraction over the non-zero
region of a 3D volume (`get_ND_bounding_box`), fixed-size cropping
(`crop_with_box`), axis transposition of volume lists (`transpose_volumes`)
and min-max intensity normalisation (`norm`).

A 3D volume is embedded as a nested list of rational samples.  Integer
arithmetic follows the source's Python-2 semantics: `/` on integers is
floor division, which for the positive divisors used here agrees with
Lean's `Int` division.  Fallible operations (numpy reductions over empty
data, out-of-range fancy indexing) are embedded with `Option`/`Except`.
-/

set_option linter.unusedVariables false

namespace BrainTumor

/-- A 3D volume: a list of planes, each a list of rows of rational samples. -/
abbrev Volume3 := List (List (List ℚ))

/-- A triple of integers, used for per-axis index vectors. -/
abbrev I3 := Int × Int × Int

/-- Sample of `vol` at coordinates `(x, y, z)`, with 0 outside the lists. -/
def get3 (vol : Volume3) (x y z : ℕ) : ℚ :=
  ((vol.getD x []).getD y []).getD z 0

/-- Extent of axis 0, as numpy's `shape[0]`. -/
def shape0 (vol : Volume3) : ℕ := vol.length

/-- Extent of axis 1, read off the first plane as numpy's `shape[1]`. -/
def shape1 (vol : Volume3) : ℕ := (vol.getD 0 []).length

/-- Extent of axis 2, read off the first row as numpy's `shape[2]`. -/
def shape2 (vol : Volume3) : ℕ := ((vol.getD 0 []).getD 0 []).length

/-- The volume is a well-formed box of shape `(d0, d1, d2)`. -/
def isCube3 (vol : Volume3) (d0 d1 d2 : ℕ) : Prop :=
  vol.length = d0 ∧ ∀ p ∈ vol, p.length = d1 ∧ ∀ r ∈ p, r.length = d2

instance (vol : Volume3) (d0 d1 d2 : ℕ) : Decidable (isCube3 vol d0 d1 d2) :=
  inferInstanceAs (Decidable (_ ∧ _))

/-- Coordinates of all non-zero samples, in C order, as `np.nonzero` lists
them for the axis-wise reductions of `get_ND_bounding_box`. -/
def nonzeroCoords (vol : Volume3) : List (ℕ × ℕ × ℕ) :=
  (List.range vol.length).flatMap fun x =>
    (List.range ((vol.getD x []).length)).flatMap fun y =>
      (((List.range (((vol.getD x []).getD y []).length)).filter
        (fun z => decide (get3 vol x y z ≠ 0))).map fun z => (x, y, z))

/-- Left fold of `min` over `x :: xs`, the embedding of `ndarray.min()`. -/
def foldMin {α : Type} [LinearOrder α] (x : α) (xs : List α) : α :=
  xs.foldl min x

/-- Left fold of `max` over `x :: xs`, the embedding of `ndarray.max()`. -/
def foldMax {α : Type} [LinearOrder α] (x : α) (xs : List α) : α :=
  xs.foldl max x

/-- Minimum of a coordinate list; the sentinel 0 is only reached on data
that makes the source raise before using the value. -/
def minNZ (l : List Int) : Int :=
  match l with
  | [] => 0
  | x :: xs => foldMin x xs

/-- Maximum of a coordinate list, with the same sentinel convention. -/
def maxNZ (l : List Int) : Int :=
  match l with
  | [] => 0
  | x :: xs => foldMax x xs

/-- Axis-0 coordinates of the non-zero samples (`np.nonzero(volume)[0]`). -/
def xsOf (vol : Volume3) : List Int :=
  (nonzeroCoords vol).map fun p => (p.1 : Int)

/-- Axis-1 coordinates of the non-zero samples (`np.nonzero(volume)[1]`). -/
def ysOf (vol : Volume3) : List Int :=
  (nonzeroCoords vol).map fun p => (p.2.1 : Int)

/-- Axis-2 coordinates of the non-zero samples (`np.nonzero(volume)[2]`). -/
def zsOf (vol : Volume3) : List Int :=
  (nonzeroCoords vol).map fun p => (p.2.2 : Int)

/-- Margin argument of `get_ND_bounding_box`: a Python `int` or a list. -/
inductive Margin
  | scalar (m : Int)
  | vec (ms : List Int)

/-- Failure modes of `get_ND_bounding_box`: the `ValueError` numpy raises
when reducing an empty coordinate array (the spec's `EmptyVolumeError`),
and the `IndexError` from reading `margin[i]` past the end of the list. -/
inductive BoxError
  | emptyVolume
  | marginIndexError
deriving DecidableEq

/-- Broadcast of the margin: `if type(margin) is int: margin = [margin]*3`
for a 3D volume; a list margin is used as given. -/
def broadcastMargin : Margin → List Int
  | .scalar m => [m, m, m]
  | .vec ms => ms

/-- Embedding of `get_ND_bounding_box(volume, margin)` (utils.py:21-45):
broadcast the margin, reduce the non-zero coordinates axis-wise to
`idx_min`/`idx_max` (numpy raises on an empty non-zero set), then widen by
the margin and clamp to `[0, shape[i]-1]`.  Reading `margin[i]` for
`i = 0, 1, 2` fails when a list margin is shorter than 3. -/
def get_ND_bounding_box (vol : Volume3) (mg : Margin) :
    Except BoxError (I3 × I3) :=
  if nonzeroCoords vol = [] then .error .emptyVolume
  else if (broadcastMargin mg).length < 3 then .error .marginIndexError
  else
    .ok ((max (minNZ (xsOf vol) - (broadcastMargin mg).getD 0 0) 0,
          max (minNZ (ysOf vol) - (broadcastMargin mg).getD 1 0) 0,
          max (minNZ (zsOf vol) - (broadcastMargin mg).getD 2 0) 0),
         (min (maxNZ (xsOf vol) + (broadcastMargin mg).getD 0 0) ((shape0 vol : Int) - 1),
          min (maxNZ (ysOf vol) + (broadcastMargin mg).getD 1 0) ((shape1 vol : Int) - 1),
          min (maxNZ (zsOf vol) + (broadcastMargin mg).getD 2 0) ((shape2 vol : Int) - 1)))

/-! ## Fixed-size cropping (`crop_with_box`, utils.py:69-103)

The per-axis index computation of lines 82-98 is embedded as a chain of
small functions mirroring the successive reassignments of `min_idx[i]` and
`max_idx[i]`.  All Python divisions here are `int` floor divisions by 2,
which agree with Lean's `Int` division. -/

/-- Midpoint `mid = (max_idx[i] + min_idx[i]) / 2` (utils.py:83). -/
def cropMid (a b : Int) : Int := (b + a) / 2

/-- Lower bound after recentring: `mid - MinBox[i]/2` (utils.py:84). -/
def cropLo0 (a b M : Int) : Int := cropMid a b - M / 2

/-- Upper bound after recentring: `mid + MinBox[i]/2` (utils.py:85). -/
def cropHi0 (a b M : Int) : Int := cropMid a b + M / 2

/-- Overshoot past the upper edge: `margin_max = max_idx[i] - shape[i]`
(utils.py:87). -/
def cropMarginMax (s a b M : Int) : Int := cropHi0 a b M - s

/-- Lower bound after the upper-edge shift of utils.py:88-90. -/
def cropLo1 (s a b M : Int) : Int :=
  if cropMarginMax s a b M > 0 then cropLo0 a b M - (cropMarginMax s a b M + 2)
  else cropLo0 a b M

/-- Upper bound after the upper-edge shift of utils.py:88-90. -/
def cropHi1 (s a b M : Int) : Int :=
  if cropMarginMax s a b M > 0 then cropHi0 a b M - (cropMarginMax s a b M + 2)
  else cropHi0 a b M

/-- Lower bound after the lower-edge shift of utils.py:92-95: when
`margin_min = min_idx[i] - 0` is negative both bounds move right by
`-margin_min + 2`. -/
def cropLo2 (s a b M : Int) : Int :=
  if cropLo1 s a b M < 0 then cropLo1 s a b M - cropLo1 s a b M + 2
  else cropLo1 s a b M

/-- Upper bound after the lower-edge shift of utils.py:92-95. -/
def cropHi2 (s a b M : Int) : Int :=
  if cropLo1 s a b M < 0 then cropHi1 s a b M - cropLo1 s a b M + 2
  else cropHi1 s a b M

/-- Final per-axis half-open window `[lo, hi)` of the crop: utils.py:97-98
forces `max_idx[i] = min_idx[i] + MinBox[i]` when the extent drifted. -/
def cropAxis (s a b M : Int) : Int × Int :=
  if cropHi2 s a b M - cropLo2 s a b M ≠ M then (cropLo2 s a b M, cropLo2 s a b M + M)
  else (cropLo2 s a b M, cropHi2 s a b M)

/-- The three per-axis windows `crop_with_box` computes for a volume. -/
def cropWindows (vol : Volume3) (mi ma M : I3) : (Int × Int) × (Int × Int) × (Int × Int) :=
  (cropAxis (shape0 vol) mi.1 ma.1 M.1,
   cropAxis (shape1 vol) mi.2.1 ma.2.1 M.2.1,
   cropAxis (shape2 vol) mi.2.2 ma.2.2 M.2.2)

/-- Values held by the caller's `min_idx` and `max_idx` lists after
`crop_with_box` returns: the loop of utils.py:82-98 assigns the computed
window bounds into the argument lists in place. -/
def crop_mutated_bounds (vol : Volume3) (mi ma M : I3) : I3 × I3 :=
  (((cropWindows vol mi ma M).1.1,
    (cropWindows vol mi ma M).2.1.1,
    (cropWindows vol mi ma M).2.2.1),
   ((cropWindows vol mi ma M).1.2,
    (cropWindows vol mi ma M).2.1.2,
    (cropWindows vol mi ma M).2.2.2))

/-- The index list `range(lo, hi)` used in the final extraction. -/
def sliceRange (lo hi : Int) : List Int :=
  (List.range (hi - lo).toNat).map fun (k : ℕ) => lo + (k : Int)

/-- Resolution of one fancy index against an axis of extent `d`: numpy
accepts `[-d, d)`, wrapping negatives, and raises `IndexError` otherwise. -/
def resolveIdx (d : ℕ) (i : Int) : Option ℕ :=
  if 0 ≤ i ∧ i < (d : Int) then some i.toNat
  else if -(d : Int) ≤ i ∧ i < 0 then some (i + d).toNat
  else none

/-- Resolution of a whole index list; `none` as soon as one index is out
of range, as the numpy indexing raises. -/
def mapOpt (f : Int → Option ℕ) : List Int → Option (List ℕ)
  | [] => some []
  | x :: xs =>
    match f x, mapOpt f xs with
    | some y, some ys => some (y :: ys)
    | _, _ => none

/-- Embedding of `volume[np.ix_(range(...), range(...), range(...))]`
(utils.py:100-102): resolve the three index lists and take the outer
product of reads, producing a fresh array. -/
def extract (vol : Volume3) (w0 w1 w2 : Int × Int) : Option Volume3 :=
  match mapOpt (resolveIdx (shape0 vol)) (sliceRange w0.1 w0.2),
        mapOpt (resolveIdx (shape1 vol)) (sliceRange w1.1 w1.2),
        mapOpt (resolveIdx (shape2 vol)) (sliceRange w2.1 w2.2) with
  | some i0, some i1, some i2 =>
    some (i0.map fun x => i1.map fun y => i2.map fun z => get3 vol x y z)
  | _, _, _ => none

/-- Embedding of `crop_with_box(volume, min_idx, max_idx, MinBox)`
(utils.py:69-103): recentre and shift each axis window, then extract the
sub-volume; `none` is the `IndexError` of an out-of-range extraction. -/
def crop_with_box (vol : Volume3) (mi ma M : I3) : Option Volume3 :=
  extract vol (cropWindows vol mi ma M).1 (cropWindows vol mi ma M).2.1
    (cropWindows vol mi ma M).2.2

/-! ## Axis transposition (`transpose_volumes`, utils.py:129-150) -/

/-- Embedding of `np.transpose(x, (2, 0, 1))`: the result has shape
`(d2, d0, d1)` and entry `(i, j, k)` reads `x[j, k, i]`. -/
def transpose201 (x : Volume3) : Volume3 :=
  (List.range (shape2 x)).map fun i =>
    (List.range (shape0 x)).map fun j =>
      (List.range (shape1 x)).map fun k => get3 x j k i

/-- Embedding of `np.transpose(x, (1, 0, 2))`: the result has shape
`(d1, d0, d2)` and entry `(i, j, k)` reads `x[j, i, k]`. -/
def transpose102 (x : Volume3) : Volume3 :=
  (List.range (shape1 x)).map fun i =>
    (List.range (shape0 x)).map fun j =>
      (List.range (shape2 x)).map fun k => get3 x j i k

/-- Embedding of `transpose_volumes(volumes, slice_direction)`
(utils.py:129-150): dispatch on the direction string; any unrecognised
direction only prints a message and returns the input list. -/
def transpose_volumes (volumes : List Volume3) (dir : String) : List Volume3 :=
  if dir = "axial" then volumes
  else if dir = "sagittal" then volumes.map transpose201
  else if dir = "coronal" then volumes.map transpose102
  else volumes

/-! ## Min-max normalisation (`norm`, utils.py:259-266) -/

/-- Embedding of `norm(data)` (utils.py:259-266) over the flattened data:
when `max - min == 0` the data is returned unchanged, otherwise every
sample is rescaled to `(x - min) / (max - min)`.  numpy's `max`/`min`
raise on empty data, embedded as `none`. -/
def norm (data : List ℚ) : Option (List ℚ) :=
  match data with
  | [] => none
  | x :: xs =>
    if foldMax x xs - foldMin x xs = 0 then some (x :: xs)
    else some ((x :: xs).map fun v =>
      (v - foldMin x xs) / (foldMax x xs - foldMin x xs))

/-- Non-negative margin: the sign condition of the spec's data model. -/
def marginNonneg : Margin → Prop
  | .scalar m => 0 ≤ m
  | .vec ms => ∀ m ∈ ms, 0 ≤ m

instance : (mg : Margin) → Decidable (marginNonneg mg)
  | .scalar m => inferInstanceAs (Decidable (0 ≤ m))
  | .vec ms => inferInstanceAs (Decidable (∀ m ∈ ms, 0 ≤ m))

/-- Margin of the right arity for a 3D volume: a scalar, or a three-entry
vector. -/
def marginArity3 : Margin → Prop
  | .scalar _ => True
  | .vec ms => ms.length = 3

instance : (mg : Margin) → Decidable (marginArity3 mg)
  | .scalar _ => inferInstanceAs (Decidable True)
  | .vec ms => inferInstanceAs (Decidable (ms.length = 3))

/-- Every sample of the volume is zero. -/
def allZero (vol : Volume3) : Prop :=
  ∀ p ∈ vol, ∀ r ∈ p, ∀ q ∈ r, q = (0 : ℚ)

instance (vol : Volume3) : Decidable (allZero vol) :=
  inferInstanceAs (Decidable (∀ p ∈ vol, ∀ r ∈ p, ∀ q ∈ r, q = (0 : ℚ)))

/-- Centre, in source coordinates, of the samples a half-open index window
`[lo, hi)` selects: the mean of `lo, ..., hi-1`. -/
def windowCenter (w : Int × Int) : ℚ :=
  ((w.1 : ℚ) + (w.2 : ℚ) - 1) / 2

/-- Neither boundary shift of utils.py:87-95 fires on this axis: the
recentred window neither overshoots the upper edge nor starts below 0. -/
def noShiftAxis (s a b M : Int) : Prop :=
  cropMarginMax s a b M ≤ 0 ∧ 0 ≤ cropLo1 s a b M

instance (s a b M : Int) : Decidable (noShiftAxis s a b M) :=
  inferInstanceAs (Decidable (_ ∧ _))

/-! ## Concrete sample volumes used by witnesses and counterexamples -/

/-- Shape `(2,2,2)` volume whose only non-zero sample sits at `(0,1,1)`. -/
def vol222 : Volume3 := [[[0, 0], [0, 1]], [[0, 0], [0, 0]]]

/-- Shape `(3,2,2)` all-zero volume. -/
def volZero : Volume3 := [[[0, 0], [0, 0]], [[0, 0], [0, 0]], [[0, 0], [0, 0]]]

/-- Shape `(6,1,1)` volume of ones. -/
def vol611 : Volume3 := [[[1]], [[1]], [[1]], [[1]], [[1]], [[1]]]

/-- Shape `(10,1,1)` volume of ones. -/
def vol1011 : Volume3 :=
  [[[1]], [[1]], [[1]], [[1]], [[1]], [[1]], [[1]], [[1]], [[1]], [[1]]]

/-- Shape `(12,1,1)` volume of ones. -/
def vol1211 : Volume3 :=
  [[[1]], [[1]], [[1]], [[1]], [[1]], [[1]], [[1]], [[1]], [[1]], [[1]], [[1]], [[1]]]

/-- Shape `(4,4,4)` volume of ones. -/
def vol444 : Volume3 :=
  [[[1, 1, 1, 1], [1, 1, 1, 1], [1, 1, 1, 1], [1, 1, 1, 1]],
   [[1, 1, 1, 1], [1, 1, 1, 1], [1, 1, 1, 1], [1, 1, 1, 1]],
   [[1, 1, 1, 1], [1, 1, 1, 1], [1, 1, 1, 1], [1, 1, 1, 1]],
   [[1, 1, 1, 1], [1, 1, 1, 1], [1, 1, 1, 1], [1, 1, 1, 1]]]

/-! ## Helper lemmas -/

theorem foldMin_le {α : Type} [LinearOrder α] (x : α) (xs : List α) :
    ∀ y, y = x ∨ y ∈ xs → foldMin x xs ≤ y := by
  induction xs generalizing x with
  | nil =>
    intro y hy
    rcases hy with rfl | h
    · exact le_refl _
    · cases h
  | cons a as ih =>
    intro y hy
    have hstep : foldMin x (a :: as) = foldMin (min x a) as := rfl
    rcases hy with rfl | h
    · exact hstep ▸ le_trans (ih (min y a) _ (Or.inl rfl)) (min_le_left _ _)
    · rcases List.mem_cons.mp h with rfl | h2
      · exact hstep ▸ le_trans (ih (min x y) _ (Or.inl rfl)) (min_le_right _ _)
      · exact hstep ▸ ih (min x a) y (Or.inr h2)

theorem le_foldMax {α : Type} [LinearOrder α] (x : α) (xs : List α) :
    ∀ y, y = x ∨ y ∈ xs → y ≤ foldMax x xs := by
  induction xs generalizing x with
  | nil =>
    intro y hy
    rcases hy with rfl | h
    · exact le_refl _
    · cases h
  | cons a as ih =>
    intro y hy
    have hstep : foldMax x (a :: as) = foldMax (max x a) as := rfl
    rcases hy with rfl | h
    · exact hstep ▸ le_trans (le_max_left _ _) (ih (max y a) _ (Or.inl rfl))
    · rcases List.mem_cons.mp h with rfl | h2
      · exact hstep ▸ le_trans (le_max_right _ _) (ih (max x y) _ (Or.inl rfl))
      · exact hstep ▸ ih (max x a) y (Or.inr h2)

theorem le_foldMin {α : Type} [LinearOrder α] (c x : α) (xs : List α)
    (h1 : c ≤ x) (h2 : ∀ y ∈ xs, c ≤ y) : c ≤ foldMin x xs := by
  induction xs generalizing x with
  | nil => exact h1
  | cons a as ih =>
    exact ih (min x a) (le_min h1 (h2 a (List.mem_cons_self _ _)))
      (fun y hy => h2 y (List.mem_cons_of_mem _ hy))

theorem foldMax_le {α : Type} [LinearOrder α] (c x : α) (xs : List α)
    (h1 : x ≤ c) (h2 : ∀ y ∈ xs, y ≤ c) : foldMax x xs ≤ c := by
  induction xs generalizing x with
  | nil => exact h1
  | cons a as ih =>
    exact ih (max x a) (max_le h1 (h2 a (List.mem_cons_self _ _)))
      (fun y hy => h2 y (List.mem_cons_of_mem _ hy))

theorem mem_nonzeroCoords (vol : Volume3) (x y z : ℕ) :
    (x, y, z) ∈ nonzeroCoords vol ↔
      x < vol.length ∧ y < (vol.getD x []).length ∧
      z < ((vol.getD x []).getD y []).length ∧ get3 vol x y z ≠ 0 := by
  simp only [nonzeroCoords, List.mem_flatMap, List.mem_map, List.mem_filter,
    List.mem_range, decide_eq_true_eq]
  constructor
  · rintro ⟨x', hx', y', hy', z', ⟨hz', hnz⟩, heq⟩
    obtain ⟨rfl, rfl, rfl⟩ : x' = x ∧ y' = y ∧ z' = z := by
      simpa [Prod.ext_iff] using heq
    exact ⟨hx', hy', hz', hnz⟩
  · rintro ⟨hx, hy, hz, hnz⟩
    exact ⟨x, hx, y, hy, z, ⟨hz, hnz⟩, rfl⟩

theorem cube_plane_len (vol : Volume3) (d0 d1 d2 : ℕ)
    (hcube : isCube3 vol d0 d1 d2) (x : ℕ) (hx : x < vol.length) :
    (vol.getD x []).length = d1 := by
  have hmem : vol.getD x [] ∈ vol := by
    rw [List.getD_eq_getElem vol [] hx]
    exact List.getElem_mem hx
  exact (hcube.2 _ hmem).1

theorem cube_row_len (vol : Volume3) (d0 d1 d2 : ℕ)
    (hcube : isCube3 vol d0 d1 d2) (x y : ℕ) (hx : x < vol.length)
    (hy : y < (vol.getD x []).length) :
    ((vol.getD x []).getD y []).length = d2 := by
  have hmem : vol.getD x [] ∈ vol := by
    rw [List.getD_eq_getElem vol [] hx]
    exact List.getElem_mem hx
  have hmem2 : (vol.getD x []).getD y [] ∈ vol.getD x [] := by
    rw [List.getD_eq_getElem _ [] hy]
    exact List.getElem_mem hy
  exact (hcube.2 _ hmem).2 _ hmem2

theorem coords_bounds (vol : Volume3) (d0 d1 d2 : ℕ)
    (hcube : isCube3 vol d0 d1 d2) (x y z : ℕ)
    (h : (x, y, z) ∈ nonzeroCoords vol) : x < d0 ∧ y < d1 ∧ z < d2 := by
  obtain ⟨hx, hy, hz, hnz⟩ := (mem_nonzeroCoords vol x y z).mp h
  refine ⟨hcube.1 ▸ hx, ?_, ?_⟩
  · exact cube_plane_len vol d0 d1 d2 hcube x hx ▸ hy
  · exact cube_row_len vol d0 d1 d2 hcube x y hx hy ▸ hz

theorem shapes_of_cube (vol : Volume3) (d0 d1 d2 : ℕ)
    (hcube : isCube3 vol d0 d1 d2) (h0 : 0 < d0) (h1 : 0 < d1) :
    shape0 vol = d0 ∧ shape1 vol = d1 ∧ shape2 vol = d2 := by
  have hlen : vol.length = d0 := hcube.1
  have hx : (0 : ℕ) < vol.length := hlen ▸ h0
  have hplane : (vol.getD 0 []).length = d1 := cube_plane_len vol d0 d1 d2 hcube 0 hx
  have hy : (0 : ℕ) < (vol.getD 0 []).length := hplane ▸ h1
  exact ⟨hlen, hplane, cube_row_len vol d0 d1 d2 hcube 0 0 hx hy⟩

theorem shape1_le_of_cube (vol : Volume3) (d0 d1 d2 : ℕ)
    (hcube : isCube3 vol d0 d1 d2) : shape1 vol ≤ d1 := by
  by_cases hx : 0 < vol.length
  · exact le_of_eq (cube_plane_len vol d0 d1 d2 hcube 0 hx)
  · have : vol = [] := List.length_eq_zero.mp (Nat.eq_zero_of_not_pos hx)
    simp [shape1, this]

theorem shape2_le_of_cube (vol : Volume3) (d0 d1 d2 : ℕ)
    (hcube : isCube3 vol d0 d1 d2) : shape2 vol ≤ d2 := by
  by_cases hx : 0 < vol.length
  · by_cases hy : 0 < (vol.getD 0 []).length
    · exact le_of_eq (cube_row_len vol d0 d1 d2 hcube 0 0 hx hy)
    · have hplane : vol.getD 0 [] = [] := List.length_eq_zero.mp (Nat.eq_zero_of_not_pos hy)
      have hz : shape2 vol = 0 := by unfold shape2; rw [hplane]; rfl
      omega
  · have hnil : vol = [] := List.length_eq_zero.mp (Nat.eq_zero_of_not_pos hx)
    have hz : shape2 vol = 0 := by unfold shape2; rw [hnil]; rfl
    omega

/-! ## Per-axis window arithmetic -/

theorem cropAxis_width (s a b M : Int) :
    (cropAxis s a b M).2 - (cropAxis s a b M).1 = M := by
  unfold cropAxis
  split_ifs with h
  · omega
  · omega

theorem cropAxis_lo_nonneg (s a b M : Int) : 0 ≤ (cropAxis s a b M).1 := by
  unfold cropAxis cropHi2 cropLo2 cropHi1 cropLo1 cropMarginMax cropHi0 cropLo0 cropMid
  split_ifs <;> omega

theorem cropAxis_inbounds (s a b M : Int)
    (ha : 0 ≤ a) (hab : a ≤ b) (hb : b ≤ s - 1)
    (hM0 : 0 ≤ M) (hMe : M % 2 = 0) (hMs : M + 2 ≤ s) :
    0 ≤ (cropAxis s a b M).1 ∧ (cropAxis s a b M).2 ≤ s ∧
      (cropAxis s a b M).2 = (cropAxis s a b M).1 + M := by
  unfold cropAxis cropHi2 cropLo2 cropHi1 cropLo1 cropMarginMax cropHi0 cropLo0 cropMid
  split_ifs <;> omega

theorem sliceRange_length (lo hi : Int) :
    (sliceRange lo hi).length = (hi - lo).toNat := by
  unfold sliceRange
  rw [List.length_map, List.length_range]

theorem mem_sliceRange (lo hi i : Int) (h : i ∈ sliceRange lo hi) :
    lo ≤ i ∧ i < hi := by
  unfold sliceRange at h
  obtain ⟨k, hk, rfl⟩ := List.mem_map.mp h
  have hk' := List.mem_range.mp hk
  omega

theorem resolveIdx_inRange (d : ℕ) (i : Int) (h0 : 0 ≤ i) (h1 : i < (d : Int)) :
    resolveIdx d i = some i.toNat := by
  unfold resolveIdx
  rw [if_pos ⟨h0, h1⟩]

theorem resolveIdx_high (d : ℕ) (i : Int) (h : (d : Int) ≤ i) :
    resolveIdx d i = none := by
  unfold resolveIdx
  rw [if_neg, if_neg] <;> omega

theorem mapOpt_some_of_forall (f : Int → Option ℕ) (l : List Int)
    (h : ∀ x ∈ l, ∃ y, f x = some y) :
    ∃ ys, mapOpt f l = some ys ∧ ys.length = l.length := by
  induction l with
  | nil => exact ⟨[], rfl, rfl⟩
  | cons a as ih =>
    obtain ⟨y, hy⟩ := h a (List.mem_cons_self _ _)
    obtain ⟨ys, hys, hlen⟩ := ih (fun x hx => h x (List.mem_cons_of_mem _ hx))
    refine ⟨y :: ys, ?_, by simp [hlen]⟩
    unfold mapOpt
    rw [hy, hys]

theorem mapOpt_none_of_mem (f : Int → Option ℕ) (l : List Int) (x : Int)
    (hx : x ∈ l) (hf : f x = none) : mapOpt f l = none := by
  induction l with
  | nil => cases hx
  | cons a as ih =>
    rcases List.mem_cons.mp hx with rfl | h2
    · unfold mapOpt
      rw [hf]
    · unfold mapOpt
      rw [ih h2]
      rcases f a with _ | y <;> rfl

/-- Successful extraction along a window triple whose axes lie within the
corresponding extents produces a box of the windows' extents. -/
theorem extract_some (vol : Volume3) (w0 w1 w2 : Int × Int)
    (h0 : 0 ≤ w0.1 ∧ w0.2 ≤ (shape0 vol : Int))
    (h1 : 0 ≤ w1.1 ∧ w1.2 ≤ (shape1 vol : Int))
    (h2 : 0 ≤ w2.1 ∧ w2.2 ≤ (shape2 vol : Int)) :
    ∃ out, extract vol w0 w1 w2 = some out ∧
      isCube3 out (w0.2 - w0.1).toNat (w1.2 - w1.1).toNat (w2.2 - w2.1).toNat := by
  have hres : ∀ (d : ℕ) (w : Int × Int), 0 ≤ w.1 → w.2 ≤ (d : Int) →
      ∃ ys, mapOpt (resolveIdx d) (sliceRange w.1 w.2) = some ys ∧
        ys.length = (w.2 - w.1).toNat := by
    intro d w hlo hhi
    obtain ⟨ys, hys, hlen⟩ := mapOpt_some_of_forall (resolveIdx d) (sliceRange w.1 w.2)
      (fun x hx => by
        obtain ⟨hxl, hxh⟩ := mem_sliceRange _ _ _ hx
        exact ⟨x.toNat, resolveIdx_inRange d x (le_trans hlo hxl) (by omega)⟩)
    exact ⟨ys, hys, by rw [hlen, sliceRange_length]⟩
  obtain ⟨i0, hi0, hl0⟩ := hres (shape0 vol) w0 h0.1 h0.2
  obtain ⟨i1, hi1, hl1⟩ := hres (shape1 vol) w1 h1.1 h1.2
  obtain ⟨i2, hi2, hl2⟩ := hres (shape2 vol) w2 h2.1 h2.2
  refine ⟨i0.map fun x => i1.map fun y => i2.map fun z => get3 vol x y z, ?_, ?_⟩
  · unfold extract
    rw [hi0, hi1, hi2]
  · refine ⟨by simpa using hl0, ?_⟩
    intro p hp
    obtain ⟨x, hx, rfl⟩ := List.mem_map.mp hp
    refine ⟨by simpa using hl1, ?_⟩
    intro r hr
    obtain ⟨y, hy, rfl⟩ := List.mem_map.mp hr
    simpa using hl2

/-- Extraction fails as soon as one axis window reaches past its extent. -/
theorem extract_none_of_high (vol : Volume3) (w0 w1 w2 : Int × Int)
    (h : ((shape0 vol : Int) < w0.2 ∧ 0 ≤ w0.1 ∧ w0.1 < w0.2) ∨
         ((shape1 vol : Int) < w1.2 ∧ 0 ≤ w1.1 ∧ w1.1 < w1.2) ∨
         ((shape2 vol : Int) < w2.2 ∧ 0 ≤ w2.1 ∧ w2.1 < w2.2)) :
    extract vol w0 w1 w2 = none := by
  have hax : ∀ (d : ℕ) (w : Int × Int), (d : Int) < w.2 → 0 ≤ w.1 → w.1 < w.2 →
      mapOpt (resolveIdx d) (sliceRange w.1 w.2) = none := by
    intro d w hd hlo hlt
    have hmem : w.2 - 1 ∈ sliceRange w.1 w.2 := by
      unfold sliceRange
      refine List.mem_map.mpr ⟨(w.2 - 1 - w.1).toNat, List.mem_range.mpr (by omega), by omega⟩
    exact mapOpt_none_of_mem _ _ (w.2 - 1) hmem (resolveIdx_high d (w.2 - 1) (by omega))
  unfold extract
  rcases h with ⟨hd, hlo, hlt⟩ | ⟨hd, hlo, hlt⟩ | ⟨hd, hlo, hlt⟩
  · rw [hax _ _ hd hlo hlt]
  · rw [hax _ _ hd hlo hlt]
    rcases mapOpt (resolveIdx (shape0 vol)) (sliceRange w0.1 w0.2) with _ | i0 <;> rfl
  · rw [hax _ _ hd hlo hlt]
    rcases mapOpt (resolveIdx (shape0 vol)) (sliceRange w0.1 w0.2) with _ | i0 <;>
      rcases mapOpt (resolveIdx (shape1 vol)) (sliceRange w1.1 w1.2) with _ | i1 <;> rfl

/-- Clamping an axis of a tight bounding box by a non-negative margin keeps
it ordered and inside `[0, d-1]`. -/
theorem boxAxis_bounds (x : Int) (xs : List Int) (d m : Int)
    (hlb : 0 ≤ x ∧ ∀ y ∈ xs, 0 ≤ y)
    (hub : x ≤ d - 1 ∧ ∀ y ∈ xs, y ≤ d - 1)
    (hm : 0 ≤ m) :
    0 ≤ max (foldMin x xs - m) 0 ∧
    max (foldMin x xs - m) 0 ≤ min (foldMax x xs + m) (d - 1) ∧
    min (foldMax x xs + m) (d - 1) ≤ d - 1 := by
  have h1 : 0 ≤ foldMin x xs := le_foldMin 0 x xs hlb.1 hlb.2
  have h2 : foldMin x xs ≤ x := foldMin_le x xs x (Or.inl rfl)
  have h3 : x ≤ foldMax x xs := le_foldMax x xs x (Or.inl rfl)
  have h4 : foldMax x xs ≤ d - 1 := foldMax_le (d - 1) x xs hub.1 hub.2
  omega

theorem margin_comp_nonneg (mg : Margin) (hm : marginNonneg mg)
    (har : marginArity3 mg) (i : ℕ) (hi : i < 3) :
    0 ≤ (broadcastMargin mg).getD i 0 := by
  cases mg with
  | scalar m =>
    interval_cases i <;> exact hm
  | vec ms =>
    have hlen : ms.length = 3 := har
    have hi' : i < ms.length := by omega
    rw [broadcastMargin, List.getD_eq_getElem ms 0 hi']
    exact hm _ (List.getElem_mem hi')

/-- C1. For every 3D volume with a non-zero voxel and every non-negative
margin of the right arity, `get_ND_bounding_box` returns, per axis, the
minimum non-zero coordinate minus the margin clamped to `≥ 0` and the
maximum non-zero coordinate plus the margin clamped to `≤ shape[i]-1`, and
the result satisfies `0 ≤ min[i] ≤ max[i] ≤ shape[i]-1` on every axis. -/
theorem get_ND_bounding_box_correct (vol : Volume3) (d0 d1 d2 : ℕ) (mg : Margin)
    (hcube : isCube3 vol d0 d1 d2)
    (hnz : nonzeroCoords vol ≠ [])
    (hm : marginNonneg mg) (har : marginArity3 mg) :
    get_ND_bounding_box vol mg =
      .ok ((max (minNZ (xsOf vol) - (broadcastMargin mg).getD 0 0) 0,
            max (minNZ (ysOf vol) - (broadcastMargin mg).getD 1 0) 0,
            max (minNZ (zsOf vol) - (broadcastMargin mg).getD 2 0) 0),
           (min (maxNZ (xsOf vol) + (broadcastMargin mg).getD 0 0) ((d0 : Int) - 1),
            min (maxNZ (ysOf vol) + (broadcastMargin mg).getD 1 0) ((d1 : Int) - 1),
            min (maxNZ (zsOf vol) + (broadcastMargin mg).getD 2 0) ((d2 : Int) - 1))) ∧
    (0 ≤ max (minNZ (xsOf vol) - (broadcastMargin mg).getD 0 0) 0 ∧
      max (minNZ (xsOf vol) - (broadcastMargin mg).getD 0 0) 0 ≤
        min (maxNZ (xsOf vol) + (broadcastMargin mg).getD 0 0) ((d0 : Int) - 1) ∧
      min (maxNZ (xsOf vol) + (broadcastMargin mg).getD 0 0) ((d0 : Int) - 1) ≤ (d0 : Int) - 1) ∧
    (0 ≤ max (minNZ (ysOf vol) - (broadcastMargin mg).getD 1 0) 0 ∧
      max (minNZ (ysOf vol) - (broadcastMargin mg).getD 1 0) 0 ≤
        min (maxNZ (ysOf vol) + (broadcastMargin mg).getD 1 0) ((d1 : Int) - 1) ∧
      min (maxNZ (ysOf vol) + (broadcastMargin mg).getD 1 0) ((d1 : Int) - 1) ≤ (d1 : Int) - 1) ∧
    (0 ≤ max (minNZ (zsOf vol) - (broadcastMargin mg).getD 2 0) 0 ∧
      max (minNZ (zsOf vol) - (broadcastMargin mg).getD 2 0) 0 ≤
        min (maxNZ (zsOf vol) + (broadcastMargin mg).getD 2 0) ((d2 : Int) - 1) ∧
      min (maxNZ (zsOf vol) + (broadcastMargin mg).getD 2 0) ((d2 : Int) - 1) ≤ (d2 : Int) - 1) := by
  obtain ⟨⟨x, y, z⟩, hc⟩ : ∃ p, p ∈ nonzeroCoords vol :=
    List.exists_mem_of_ne_nil _ hnz
  obtain ⟨hx, hy, hz⟩ := coords_bounds vol d0 d1 d2 hcube x y z hc
  have hd1 : 0 < d1 := Nat.zero_lt_of_lt hy
  have hsh := shapes_of_cube vol d0 d1 d2 hcube (Nat.zero_lt_of_lt hx) hd1
  have hlen : (broadcastMargin mg).length = 3 := by
    cases mg with
    | scalar m => rfl
    | vec ms => exact har
  have hxbounds : ∀ w ∈ xsOf vol, 0 ≤ w ∧ w ≤ (d0 : Int) - 1 := by
    intro w hw
    obtain ⟨⟨px, py, pz⟩, hp, rfl⟩ := List.mem_map.mp hw
    obtain ⟨h1, _, _⟩ := coords_bounds vol d0 d1 d2 hcube px py pz hp
    omega
  have hybounds : ∀ w ∈ ysOf vol, 0 ≤ w ∧ w ≤ (d1 : Int) - 1 := by
    intro w hw
    obtain ⟨⟨px, py, pz⟩, hp, rfl⟩ := List.mem_map.mp hw
    obtain ⟨_, h2, _⟩ := coords_bounds vol d0 d1 d2 hcube px py pz hp
    dsimp only
    omega
  have hzbounds : ∀ w ∈ zsOf vol, 0 ≤ w ∧ w ≤ (d2 : Int) - 1 := by
    intro w hw
    obtain ⟨⟨px, py, pz⟩, hp, rfl⟩ := List.mem_map.mp hw
    obtain ⟨_, _, h3⟩ := coords_bounds vol d0 d1 d2 hcube px py pz hp
    dsimp only
    omega
  have hnzx : xsOf vol ≠ [] := by
    unfold xsOf
    intro hcon
    exact hnz (List.map_eq_nil_iff.mp hcon)
  have hnzy : ysOf vol ≠ [] := by
    unfold ysOf
    intro hcon
    exact hnz (List.map_eq_nil_iff.mp hcon)
  have hnzz : zsOf vol ≠ [] := by
    unfold zsOf
    intro hcon
    exact hnz (List.map_eq_nil_iff.mp hcon)
  have hm0 := margin_comp_nonneg mg hm har 0 (by omega)
  have hm1 := margin_comp_nonneg mg hm har 1 (by omega)
  have hm2 := margin_comp_nonneg mg hm har 2 (by omega)
  have axisFact : ∀ (l : List Int) (d m : Int), l ≠ [] →
      (∀ w ∈ l, 0 ≤ w ∧ w ≤ d - 1) → 0 ≤ m →
      0 ≤ max (minNZ l - m) 0 ∧
      max (minNZ l - m) 0 ≤ min (maxNZ l + m) (d - 1) ∧
      min (maxNZ l + m) (d - 1) ≤ d - 1 := by
    intro l d m hne hbd hm'
    rcases l with _ | ⟨w, ws⟩
    · exact absurd rfl hne
    · exact boxAxis_bounds w ws d m
        ⟨(hbd w (List.mem_cons_self _ _)).1, fun v hv => (hbd v (List.mem_cons_of_mem _ hv)).1⟩
        ⟨(hbd w (List.mem_cons_self _ _)).2, fun v hv => (hbd v (List.mem_cons_of_mem _ hv)).2⟩ hm'
  refine ⟨?_, axisFact _ _ _ hnzx hxbounds hm0, axisFact _ _ _ hnzy hybounds hm1,
    axisFact _ _ _ hnzz hzbounds hm2⟩
  unfold get_ND_bounding_box
  rw [if_neg hnz, if_neg (by omega), hsh.1, hsh.2.1, hsh.2.2]

/-- C1 witness: shape `(2,2,2)` volume with one non-zero voxel at
`(0,1,1)` and scalar margin 1. -/
theorem get_ND_bounding_box_correct_witness :
    get_ND_bounding_box vol222 (.scalar 1) = .ok ((0, 0, 0), (1, 1, 1)) := by
  have h := get_ND_bounding_box_correct vol222 2 2 2 (.scalar 1)
    (by decide) (by decide) (by decide) (by decide)
  rw [h.1]
  rfl

theorem nonzeroCoords_of_allZero (vol : Volume3) (h : allZero vol) :
    nonzeroCoords vol = [] := by
  rw [List.eq_nil_iff_forall_not_mem]
  rintro ⟨x, y, z⟩ hmem
  obtain ⟨hx, hy, hz, hnz⟩ := (mem_nonzeroCoords vol x y z).mp hmem
  apply hnz
  have hpm : vol.getD x [] ∈ vol := by
    rw [List.getD_eq_getElem vol [] hx]
    exact List.getElem_mem hx
  have hrm : (vol.getD x []).getD y [] ∈ vol.getD x [] := by
    rw [List.getD_eq_getElem _ [] hy]
    exact List.getElem_mem hy
  have hqm : ((vol.getD x []).getD y []).getD z 0 ∈ (vol.getD x []).getD y [] := by
    rw [List.getD_eq_getElem _ 0 hz]
    exact List.getElem_mem hz
  exact h _ hpm _ hrm _ hqm

/-- C4. On an all-zero volume `get_ND_bounding_box` fails with the
empty-volume error (the `ValueError` numpy raises when reducing the empty
non-zero coordinate array, named `EmptyVolumeError` by the spec), whatever
the margin. -/
theorem get_ND_bounding_box_empty (vol : Volume3) (mg : Margin)
    (h : allZero vol) :
    get_ND_bounding_box vol mg = .error .emptyVolume := by
  unfold get_ND_bounding_box
  rw [if_pos (nonzeroCoords_of_allZero vol h)]

/-- C4 witness: the shape `(3,2,2)` all-zero volume with scalar margin 2. -/
theorem get_ND_bounding_box_empty_witness :
    get_ND_bounding_box volZero (.scalar 2) = .error .emptyVolume :=
  get_ND_bounding_box_empty volZero (.scalar 2) (by decide)

/-- C7 counterexample: the claim says a negative margin makes
`get_ND_bounding_box` fail with `InvalidMarginError`; the source has no
margin validation at all, and on this volume with scalar margin `-5` the
call returns a bounding box (one with `min > max`) instead of failing. -/
theorem get_ND_negative_margin_counterexample :
    get_ND_bounding_box vol222 (.scalar (-5)) = .ok ((5, 6, 6), (-5, -4, -4)) := by
  rfl

/-- C7 amended. `get_ND_bounding_box` does not validate margins: any
scalar margin, negative ones included, yields a normal result on a volume
with a non-zero voxel, and a margin vector with fewer than three entries
fails with a plain index error when `margin[i]` is read, not with a
dedicated invalid-margin error. -/
theorem get_ND_margin_unvalidated (vol : Volume3) (m : Int) (ms : List Int)
    (hnz : nonzeroCoords vol ≠ []) (hshort : ms.length < 3) :
    (∃ r, get_ND_bounding_box vol (.scalar m) = .ok r) ∧
    get_ND_bounding_box vol (.vec ms) = .error .marginIndexError := by
  constructor
  · exact ⟨_, by
      unfold get_ND_bounding_box
      rw [if_neg hnz, if_neg (by simp [broadcastMargin])]⟩
  · unfold get_ND_bounding_box
    rw [if_neg hnz, if_pos (by simpa [broadcastMargin] using hshort)]

/-- C7 amended witness: scalar margin `-7` succeeds, one-entry margin list
fails with the index error, on the `(2,2,2)` sample volume. -/
theorem get_ND_margin_unvalidated_witness :
    (∃ r, get_ND_bounding_box vol222 (.scalar (-7)) = .ok r) ∧
    get_ND_bounding_box vol222 (.vec [1]) = .error .marginIndexError :=
  get_ND_margin_unvalidated vol222 (-7) [1] (by decide) (by decide)

/-- C9. For any direction string other than the three recognised ones,
`transpose_volumes` returns the input list unchanged, exactly as for
`axial`, and does not fail. -/
theorem transpose_volumes_default (volumes : List Volume3) (dir : String)
    (h1 : dir ≠ "axial") (h2 : dir ≠ "sagittal") (h3 : dir ≠ "coronal") :
    transpose_volumes volumes dir = volumes ∧
    transpose_volumes volumes "axial" = volumes := by
  constructor
  · unfold transpose_volumes
    rw [if_neg h1, if_neg h2, if_neg h3]
  · unfold transpose_volumes
    rw [if_pos rfl]

/-- C9 witness: the unrecognised direction string `oblique`. -/
theorem transpose_volumes_default_witness :
    transpose_volumes [vol222] "oblique" = [vol222] ∧
    transpose_volumes [vol222] "axial" = [vol222] :=
  transpose_volumes_default [vol222] "oblique" (by decide) (by decide) (by decide)

theorem foldMax_const {α : Type} [LinearOrder α] (x : α) (xs : List α)
    (h : ∀ y ∈ xs, y = x) : foldMax x xs = x :=
  le_antisymm (foldMax_le x x xs le_rfl (fun y hy => le_of_eq (h y hy)))
    (le_foldMax x xs x (Or.inl rfl))

theorem foldMin_const {α : Type} [LinearOrder α] (x : α) (xs : List α)
    (h : ∀ y ∈ xs, y = x) : foldMin x xs = x :=
  le_antisymm (foldMin_le x xs x (Or.inl rfl))
    (le_foldMin x x xs le_rfl (fun y hy => le_of_eq (h y hy).symm))

/-- C10. `norm` returns constant data unchanged instead of dividing by
zero; on non-constant data it returns `(data - min) / (max - min)`, the
divisor is non-zero, and every output sample lies in `[0, 1]`. -/
theorem norm_minmax (x : ℚ) (xs : List ℚ) :
    ((∀ y ∈ x :: xs, y = x) → norm (x :: xs) = some (x :: xs)) ∧
    (∀ a ∈ x :: xs, ∀ b ∈ x :: xs, a ≠ b →
      norm (x :: xs) = some ((x :: xs).map fun v =>
        (v - foldMin x xs) / (foldMax x xs - foldMin x xs)) ∧
      foldMax x xs - foldMin x xs ≠ 0 ∧
      ∀ w ∈ (x :: xs).map fun v =>
          (v - foldMin x xs) / (foldMax x xs - foldMin x xs),
        0 ≤ w ∧ w ≤ 1) := by
  constructor
  · intro hconst
    have hmax : foldMax x xs = x :=
      foldMax_const x xs fun y hy => hconst y (List.mem_cons_of_mem _ hy)
    have hmin : foldMin x xs = x :=
      foldMin_const x xs fun y hy => hconst y (List.mem_cons_of_mem _ hy)
    simp only [norm]
    rw [hmax, hmin, if_pos (sub_self x)]
  · intro a ha b hb hab
    have hbound : ∀ y ∈ x :: xs, foldMin x xs ≤ y ∧ y ≤ foldMax x xs := by
      intro y hy
      rcases List.mem_cons.mp hy with rfl | hy2
      · exact ⟨foldMin_le y xs y (Or.inl rfl), le_foldMax y xs y (Or.inl rfl)⟩
      · exact ⟨foldMin_le x xs y (Or.inr hy2), le_foldMax x xs y (Or.inr hy2)⟩
    have hlt : foldMin x xs < foldMax x xs := by
      rcases lt_or_gt_of_ne hab with h | h
      · exact lt_of_le_of_lt (hbound a ha).1 (lt_of_lt_of_le h (hbound b hb).2)
      · exact lt_of_le_of_lt (hbound b hb).1 (lt_of_lt_of_le h (hbound a ha).2)
    have hne : foldMax x xs - foldMin x xs ≠ 0 := by
      intro hcon
      exact absurd (by linarith : foldMax x xs ≤ foldMin x xs) (not_le.mpr hlt)
    refine ⟨?_, hne, ?_⟩
    · simp only [norm]
      rw [if_neg hne]
    · intro w hw
      obtain ⟨v, hv, rfl⟩ := List.mem_map.mp hw
      have hvb := hbound v hv
      have hpos : 0 < foldMax x xs - foldMin x xs := by linarith
      constructor
      · exact div_nonneg (by linarith) (le_of_lt hpos)
      · rw [div_le_one hpos]
        linarith

/-- C10 witness: the constant list `[1, 1]` is returned unchanged; the
non-constant list `[0, 2]` is rescaled into `[0, 1]` with divisor 2. -/
theorem norm_minmax_witness :
    norm [(1 : ℚ), 1] = some [(1 : ℚ), 1] ∧
    (norm [(0 : ℚ), 2] = some ([(0 : ℚ), 2].map fun v =>
        (v - foldMin (0 : ℚ) [2]) / (foldMax (0 : ℚ) [2] - foldMin (0 : ℚ) [2])) ∧
      foldMax (0 : ℚ) [2] - foldMin (0 : ℚ) [2] ≠ 0 ∧
      ∀ w ∈ [(0 : ℚ), 2].map fun v =>
          (v - foldMin (0 : ℚ) [2]) / (foldMax (0 : ℚ) [2] - foldMin (0 : ℚ) [2]),
        0 ≤ w ∧ w ≤ 1) :=
  ⟨(norm_minmax 1 [1]).1 (by decide),
   (norm_minmax 0 [2]).2 0 (by decide) 2 (by decide) (by decide)⟩

/-- C6 counterexample: the claim says `crop_with_box` leaves its `min_idx`
and `max_idx` arguments unchanged; the loop of utils.py:84-98 assigns into
those lists in place, and after this call they hold the computed window
`((0,0,0),(6,1,1))`, not the original `((2,0,0),(4,0,0))`. -/
theorem crop_mutates_counterexample :
    crop_mutated_bounds vol1011 (2, 0, 0) (4, 0, 0) (6, 1, 1) ≠
      ((2, 0, 0), (4, 0, 0)) := by
  decide

/-- C6 amended. `crop_with_box` overwrites `min_idx` and `max_idx` in
place: after the call they hold exactly the final crop window, whose
extent is `MinBox[i]` on every axis, and the returned volume is built by
reading (never writing) the unchanged input volume at those indices. -/
theorem crop_mutated_bounds_spec (vol : Volume3) (mi ma M : I3) :
    ((crop_mutated_bounds vol mi ma M).2.1 -
        (crop_mutated_bounds vol mi ma M).1.1 = M.1 ∧
     (crop_mutated_bounds vol mi ma M).2.2.1 -
        (crop_mutated_bounds vol mi ma M).1.2.1 = M.2.1 ∧
     (crop_mutated_bounds vol mi ma M).2.2.2 -
        (crop_mutated_bounds vol mi ma M).1.2.2 = M.2.2) ∧
    crop_with_box vol mi ma M =
      extract vol
        ((crop_mutated_bounds vol mi ma M).1.1, (crop_mutated_bounds vol mi ma M).2.1)
        ((crop_mutated_bounds vol mi ma M).1.2.1, (crop_mutated_bounds vol mi ma M).2.2.1)
        ((crop_mutated_bounds vol mi ma M).1.2.2, (crop_mutated_bounds vol mi ma M).2.2.2) := by
  refine ⟨⟨?_, ?_, ?_⟩, ?_⟩
  · exact cropAxis_width (shape0 vol : Int) mi.1 ma.1 M.1
  · exact cropAxis_width (shape1 vol : Int) mi.2.1 ma.2.1 M.2.1
  · exact cropAxis_width (shape2 vol : Int) mi.2.2 ma.2.2 M.2.2
  · rfl

/-- Core success lemma for `crop_with_box`: under a valid index range and
a target size that is even and at most `shape - 2` on every axis, every
per-axis window stays inside the volume and the extraction succeeds with a
box of exactly the target size. -/
theorem crop_with_box_core (vol : Volume3) (d0 d1 d2 : ℕ) (mi ma M : I3)
    (hcube : isCube3 vol d0 d1 d2)
    (hr0 : 0 ≤ mi.1 ∧ mi.1 ≤ ma.1 ∧ ma.1 ≤ (d0 : Int) - 1)
    (hr1 : 0 ≤ mi.2.1 ∧ mi.2.1 ≤ ma.2.1 ∧ ma.2.1 ≤ (d1 : Int) - 1)
    (hr2 : 0 ≤ mi.2.2 ∧ mi.2.2 ≤ ma.2.2 ∧ ma.2.2 ≤ (d2 : Int) - 1)
    (hM0 : 0 ≤ M.1 ∧ M.1 % 2 = 0 ∧ M.1 + 2 ≤ (d0 : Int))
    (hM1 : 0 ≤ M.2.1 ∧ M.2.1 % 2 = 0 ∧ M.2.1 + 2 ≤ (d1 : Int))
    (hM2 : 0 ≤ M.2.2 ∧ M.2.2 % 2 = 0 ∧ M.2.2 + 2 ≤ (d2 : Int)) :
    (0 ≤ (cropAxis (d0 : Int) mi.1 ma.1 M.1).1 ∧
      (cropAxis (d0 : Int) mi.1 ma.1 M.1).1 + M.1 ≤ (d0 : Int)) ∧
    (0 ≤ (cropAxis (d1 : Int) mi.2.1 ma.2.1 M.2.1).1 ∧
      (cropAxis (d1 : Int) mi.2.1 ma.2.1 M.2.1).1 + M.2.1 ≤ (d1 : Int)) ∧
    (0 ≤ (cropAxis (d2 : Int) mi.2.2 ma.2.2 M.2.2).1 ∧
      (cropAxis (d2 : Int) mi.2.2 ma.2.2 M.2.2).1 + M.2.2 ≤ (d2 : Int)) ∧
    ∃ out, crop_with_box vol mi ma M = some out ∧
      isCube3 out M.1.toNat M.2.1.toNat M.2.2.toNat := by
  have hd0 : 2 ≤ (d0 : Int) := by omega
  have hd1 : 2 ≤ (d1 : Int) := by omega
  have hsh := shapes_of_cube vol d0 d1 d2 hcube (by omega) (by omega)
  have hib0 := cropAxis_inbounds (d0 : Int) mi.1 ma.1 M.1
    hr0.1 hr0.2.1 (by omega) hM0.1 hM0.2.1 hM0.2.2
  have hib1 := cropAxis_inbounds (d1 : Int) mi.2.1 ma.2.1 M.2.1
    hr1.1 hr1.2.1 (by omega) hM1.1 hM1.2.1 hM1.2.2
  have hib2 := cropAxis_inbounds (d2 : Int) mi.2.2 ma.2.2 M.2.2
    hr2.1 hr2.2.1 (by omega) hM2.1 hM2.2.1 hM2.2.2
  refine ⟨⟨hib0.1, by omega⟩, ⟨hib1.1, by omega⟩, ⟨hib2.1, by omega⟩, ?_⟩
  have hw0 := cropAxis_width (d0 : Int) mi.1 ma.1 M.1
  have hw1 := cropAxis_width (d1 : Int) mi.2.1 ma.2.1 M.2.1
  have hw2 := cropAxis_width (d2 : Int) mi.2.2 ma.2.2 M.2.2
  obtain ⟨out, hout, hcube'⟩ := extract_some vol
    (cropAxis (d0 : Int) mi.1 ma.1 M.1)
    (cropAxis (d1 : Int) mi.2.1 ma.2.1 M.2.1)
    (cropAxis (d2 : Int) mi.2.2 ma.2.2 M.2.2)
    (by rw [hsh.1]; exact ⟨hib0.1, hib0.2.1⟩)
    (by rw [hsh.2.1]; exact ⟨hib1.1, hib1.2.1⟩)
    (by rw [hsh.2.2]; exact ⟨hib2.1, hib2.2.1⟩)
  refine ⟨out, ?_, ?_⟩
  · rw [← hout]
    unfold crop_with_box cropWindows
    rw [hsh.1, hsh.2.1, hsh.2.2]
  · rw [hw0, hw1, hw2] at hcube'
    exact hcube'

/-- C3 counterexample: the claim says the shifted window always stays
within the source volume; on the shape `(6,1,1)` volume with in-range
bounds `[4,4]` and target `5 ≤ 6`, no shift fires, the odd-size forcing
step sets the axis-0 window to `[2, 7)`, its end exceeds the shape 6, and
the extraction indexes out of bounds (`none`). -/
theorem crop_window_counterexample :
    (0 ≤ (4 : Int) ∧ (4 : Int) ≤ 4 ∧ (4 : Int) ≤ (shape0 vol611 : Int) - 1) ∧
    ((5 : Int) ≤ (shape0 vol611 : Int)) ∧
    ¬((cropAxis (shape0 vol611 : Int) 4 4 5).1 + 5 ≤ (shape0 vol611 : Int)) ∧
    crop_with_box vol611 (4, 0, 0) (4, 0, 0) (5, 1, 1) = none := by
  decide

/-- C3 amended. The shifted window always satisfies `0 ≤ new_min[i]`; and
provided each target size is even and at most `shape[i] - 2`, it also
satisfies `new_min[i] + target_size[i] ≤ shape[i]` on every axis, so the
final extraction stays in bounds and the crop returns a volume.  With only
`target_size ≤ shape` the slack of 2 and the odd-size forcing step can
push the window past the upper edge. -/
theorem crop_window_stays_inbounds (vol : Volume3) (d0 d1 d2 : ℕ) (mi ma M : I3)
    (hcube : isCube3 vol d0 d1 d2)
    (hr0 : 0 ≤ mi.1 ∧ mi.1 ≤ ma.1 ∧ ma.1 ≤ (d0 : Int) - 1)
    (hr1 : 0 ≤ mi.2.1 ∧ mi.2.1 ≤ ma.2.1 ∧ ma.2.1 ≤ (d1 : Int) - 1)
    (hr2 : 0 ≤ mi.2.2 ∧ mi.2.2 ≤ ma.2.2 ∧ ma.2.2 ≤ (d2 : Int) - 1)
    (hM0 : 0 ≤ M.1 ∧ M.1 % 2 = 0 ∧ M.1 + 2 ≤ (d0 : Int))
    (hM1 : 0 ≤ M.2.1 ∧ M.2.1 % 2 = 0 ∧ M.2.1 + 2 ≤ (d1 : Int))
    (hM2 : 0 ≤ M.2.2 ∧ M.2.2 % 2 = 0 ∧ M.2.2 + 2 ≤ (d2 : Int)) :
    (0 ≤ (cropAxis (d0 : Int) mi.1 ma.1 M.1).1 ∧
      (cropAxis (d0 : Int) mi.1 ma.1 M.1).1 + M.1 ≤ (d0 : Int)) ∧
    (0 ≤ (cropAxis (d1 : Int) mi.2.1 ma.2.1 M.2.1).1 ∧
      (cropAxis (d1 : Int) mi.2.1 ma.2.1 M.2.1).1 + M.2.1 ≤ (d1 : Int)) ∧
    (0 ≤ (cropAxis (d2 : Int) mi.2.2 ma.2.2 M.2.2).1 ∧
      (cropAxis (d2 : Int) mi.2.2 ma.2.2 M.2.2).1 + M.2.2 ≤ (d2 : Int)) ∧
    crop_with_box vol mi ma M ≠ none := by
  obtain ⟨h0, h1, h2, out, hout, hsh⟩ :=
    crop_with_box_core vol d0 d1 d2 mi ma M hcube hr0 hr1 hr2 hM0 hM1 hM2
  exact ⟨h0, h1, h2, by rw [hout]; exact Option.some_ne_none out⟩

/-- C3 amended witness: on the `(4,4,4)` volume with range
`(0,0,0)..(3,3,3)` and target `(2,2,2)` all windows stay inside and the
crop succeeds. -/
theorem crop_window_stays_inbounds_witness :
    (0 ≤ (cropAxis ((4 : ℕ) : Int) 0 3 2).1 ∧
      (cropAxis ((4 : ℕ) : Int) 0 3 2).1 + 2 ≤ ((4 : ℕ) : Int)) ∧
    (0 ≤ (cropAxis ((4 : ℕ) : Int) 0 3 2).1 ∧
      (cropAxis ((4 : ℕ) : Int) 0 3 2).1 + 2 ≤ ((4 : ℕ) : Int)) ∧
    (0 ≤ (cropAxis ((4 : ℕ) : Int) 0 3 2).1 ∧
      (cropAxis ((4 : ℕ) : Int) 0 3 2).1 + 2 ≤ ((4 : ℕ) : Int)) ∧
    crop_with_box vol444 (0, 0, 0) (3, 3, 3) (2, 2, 2) ≠ none :=
  crop_window_stays_inbounds vol444 4 4 4 (0, 0, 0) (3, 3, 3) (2, 2, 2)
    (by decide) (by decide) (by decide) (by decide)
    (by decide) (by decide) (by decide)

/-- C5. Whenever the target size exceeds the volume shape on some axis,
`crop_with_box` fails (the final extraction indexes past the volume and
raises, embedded as `none`) rather than returning a volume — the failure
the spec names `SizeExceedsVolumeError`. -/
theorem crop_with_box_oversize_fails (vol : Volume3) (d0 d1 d2 : ℕ) (mi ma M : I3)
    (hcube : isCube3 vol d0 d1 d2)
    (hbig : (d0 : Int) < M.1 ∨ (d1 : Int) < M.2.1 ∨ (d2 : Int) < M.2.2) :
    crop_with_box vol mi ma M = none := by
  have hs0 : (shape0 vol : Int) = (d0 : Int) := by
    have := hcube.1
    unfold shape0
    omega
  have hs1 : (shape1 vol : Int) ≤ (d1 : Int) := by
    have := shape1_le_of_cube vol d0 d1 d2 hcube
    omega
  have hs2 : (shape2 vol : Int) ≤ (d2 : Int) := by
    have := shape2_le_of_cube vol d0 d1 d2 hcube
    omega
  unfold crop_with_box cropWindows
  apply extract_none_of_high
  dsimp only
  rcases hbig with hb | hb | hb
  · have hw := cropAxis_width (shape0 vol : Int) mi.1 ma.1 M.1
    have hlo := cropAxis_lo_nonneg (shape0 vol : Int) mi.1 ma.1 M.1
    exact Or.inl ⟨by omega, hlo, by omega⟩
  · have hw := cropAxis_width (shape1 vol : Int) mi.2.1 ma.2.1 M.2.1
    have hlo := cropAxis_lo_nonneg (shape1 vol : Int) mi.2.1 ma.2.1 M.2.1
    exact Or.inr (Or.inl ⟨by omega, hlo, by omega⟩)
  · have hw := cropAxis_width (shape2 vol : Int) mi.2.2 ma.2.2 M.2.2
    have hlo := cropAxis_lo_nonneg (shape2 vol : Int) mi.2.2 ma.2.2 M.2.2
    exact Or.inr (Or.inr ⟨by omega, hlo, by omega⟩)

/-- C5 witness: target `(3,1,1)` exceeds the `(2,2,2)` volume on axis 0
and the crop fails. -/
theorem crop_with_box_oversize_fails_witness :
    crop_with_box vol222 (0, 0, 0) (1, 1, 1) (3, 1, 1) = none :=
  crop_with_box_oversize_fails vol222 2 2 2 (0, 0, 0) (1, 1, 1) (3, 1, 1)
    (by decide) (Or.inl (by decide))

theorem cropAxis_lo_noShift (s a b M : Int) (h : noShiftAxis s a b M) :
    (cropAxis s a b M).1 = (b + a) / 2 - M / 2 := by
  obtain ⟨h1, h2⟩ := h
  have hneg : ¬ cropMarginMax s a b M > 0 := by omega
  have e1 : cropLo1 s a b M = cropLo0 a b M := by
    unfold cropLo1
    rw [if_neg hneg]
  have hneg2 : ¬ cropLo1 s a b M < 0 := by omega
  have e2 : cropLo2 s a b M = cropLo1 s a b M := by
    unfold cropLo2
    rw [if_neg hneg2]
  unfold cropAxis
  split_ifs with hforce <;>
    · dsimp only
      rw [e2, e1]
      rfl

theorem cropAxis_center_le_one (s a b M : Int) (hM : 0 ≤ M)
    (h : noShiftAxis s a b M) :
    |windowCenter (cropAxis s a b M) - (((a : ℚ) + (b : ℚ)) / 2)| ≤ 1 := by
  have hlo := cropAxis_lo_noShift s a b M h
  have hw := cropAxis_width s a b M
  have hi_eq : (cropAxis s a b M).2 = (b + a) / 2 - M / 2 + M := by omega
  have i1 : 2 * ((b + a) / 2) + (b + a) % 2 = b + a := by omega
  have i2 : 0 ≤ (b + a) % 2 ∧ (b + a) % 2 ≤ 1 := by omega
  have i3 : 2 * (M / 2) + M % 2 = M := by omega
  have i4 : 0 ≤ M % 2 ∧ M % 2 ≤ 1 := by omega
  unfold windowCenter
  rw [hlo, hi_eq]
  have q1 : (2 : ℚ) * (((b + a) / 2 : Int) : ℚ) + (((b + a) % 2 : Int) : ℚ) =
      (b : ℚ) + (a : ℚ) := by exact_mod_cast i1
  have q2 : (0 : ℚ) ≤ (((b + a) % 2 : Int) : ℚ) ∧ (((b + a) % 2 : Int) : ℚ) ≤ 1 := by
    exact ⟨by exact_mod_cast i2.1, by exact_mod_cast i2.2⟩
  have q3 : (2 : ℚ) * ((M / 2 : Int) : ℚ) + ((M % 2 : Int) : ℚ) = (M : ℚ) := by
    exact_mod_cast i3
  have q4 : (0 : ℚ) ≤ ((M % 2 : Int) : ℚ) ∧ ((M % 2 : Int) : ℚ) ≤ 1 := by
    exact ⟨by exact_mod_cast i4.1, by exact_mod_cast i4.2⟩
  rw [abs_le]
  push_cast
  push_cast at q1 q2 q3 q4
  constructor <;> linarith [q1, q2.1, q2.2, q3, q4.1, q4.2]

/-- C8 counterexample: the claim bounds the centre drift strictly below 1
per axis; with range `[4,5]` and even target 4 inside the `(12,1,1)`
volume no shift fires, the axis-0 window is `[2,6)` with centre `3.5`,
the range centre is `4.5`, and the drift is exactly 1, not less than 1. -/
theorem crop_center_counterexample :
    (0 ≤ (4 : Int) ∧ (4 : Int) ≤ 5 ∧ (5 : Int) ≤ (shape0 vol1211 : Int) - 1) ∧
    (noShiftAxis (shape0 vol1211 : Int) 4 5 4 ∧
      noShiftAxis (shape1 vol1211 : Int) 0 0 1 ∧
      noShiftAxis (shape2 vol1211 : Int) 0 0 1) ∧
    ¬(|windowCenter (cropWindows vol1211 (4, 0, 0) (5, 0, 0) (4, 1, 1)).1 -
        ((4 : ℚ) + 5) / 2| < 1) := by
  refine ⟨by decide, by decide, ?_⟩
  have hw : (cropWindows vol1211 (4, 0, 0) (5, 0, 0) (4, 1, 1)).1 = (2, 6) := by
    decide
  rw [hw]
  unfold windowCenter
  push_cast
  have hv : ((2 : ℚ) + 6 - 1) / 2 - ((4 : ℚ) + 5) / 2 = -1 := by norm_num
  rw [hv, abs_neg, abs_one]
  exact lt_irrefl 1

/-- C8 amended. When no boundary shift fires on any axis, the centre of
the window `crop_with_box` extracts differs from the centre
`(min_idx[i] + max_idx[i]) / 2` of the input range by at most 1 unit per
axis (the bound 1 is attained when the target size is even and
`min_idx[i] + max_idx[i]` is odd, so `less than 1` fails). -/
theorem crop_center_within_one (vol : Volume3) (mi ma M : I3)
    (hM : 0 ≤ M.1 ∧ 0 ≤ M.2.1 ∧ 0 ≤ M.2.2)
    (h0 : noShiftAxis (shape0 vol : Int) mi.1 ma.1 M.1)
    (h1 : noShiftAxis (shape1 vol : Int) mi.2.1 ma.2.1 M.2.1)
    (h2 : noShiftAxis (shape2 vol : Int) mi.2.2 ma.2.2 M.2.2) :
    |windowCenter (cropWindows vol mi ma M).1 -
        (((mi.1 : ℚ) + (ma.1 : ℚ)) / 2)| ≤ 1 ∧
    |windowCenter (cropWindows vol mi ma M).2.1 -
        (((mi.2.1 : ℚ) + (ma.2.1 : ℚ)) / 2)| ≤ 1 ∧
    |windowCenter (cropWindows vol mi ma M).2.2 -
        (((mi.2.2 : ℚ) + (ma.2.2 : ℚ)) / 2)| ≤ 1 :=
  ⟨cropAxis_center_le_one _ _ _ _ hM.1 h0,
   cropAxis_center_le_one _ _ _ _ hM.2.1 h1,
   cropAxis_center_le_one _ _ _ _ hM.2.2 h2⟩

/-- C8 amended witness: range `[4,4]` and target `(4,1,1)` in the
`(12,1,1)` volume; every centre drift is at most 1. -/
theorem crop_center_within_one_witness :
    |windowCenter (cropWindows vol1211 (4, 0, 0) (4, 0, 0) (4, 1, 1)).1 -
        ((((4 : Int) : ℚ) + ((4 : Int) : ℚ)) / 2)| ≤ 1 ∧
    |windowCenter (cropWindows vol1211 (4, 0, 0) (4, 0, 0) (4, 1, 1)).2.1 -
        ((((0 : Int) : ℚ) + ((0 : Int) : ℚ)) / 2)| ≤ 1 ∧
    |windowCenter (cropWindows vol1211 (4, 0, 0) (4, 0, 0) (4, 1, 1)).2.2 -
        ((((0 : Int) : ℚ) + ((0 : Int) : ℚ)) / 2)| ≤ 1 :=
  crop_center_within_one vol1211 (4, 0, 0) (4, 0, 0) (4, 1, 1)
    (by decide) (by decide) (by decide) (by decide)

end BrainTumor
